import Mathlib

/-!
Shallow embedding of the Normalization & Quality Pipeline of the
QuantFinanceProject earnings agent, together with theorems settling the
specification claims about it.

The embedded components:
 * `runCompletenessCheck` — `quality_engine/stage1/stage_1a_completeness.py`
 * `getLeafIdsRecursive` / `flattenLeaves` — the two taxonomy-tree
   flatteners (`quality_engine/playbook_utils.py` and
   `normalization/label_normalizer.py`)
 * `triggerWaterfallResets` — `quality_engine/quality_engine.py`
 * `determineReviewRequirement` / `processUnitNormalizationDiscovery` /
   `runUnitNormalizerDiscoveryIds` — `normalization/unit_normalizer.py`
 * `callGeminiWithRetry` — `llm/normalizer_client.py`
 * `discoverStmt` / `runLabelDiscoveryDoc` — label-normalizer discovery
 * `applyLabelDoc` — label-normalizer application
-/

namespace QFin

/-! ### Generic helpers: sorting of strings, Python truthiness -/

/-- `sorted(list(...))` on strings, as used by the Python code. -/
def sortStrings (l : List String) : List String := l.insertionSort (· ≤ ·)

/-- Python truthiness of an optional string (`None` and `""` are falsy). -/
def optStrTruthy : Option String → Bool
  | none => false
  | some s => s ≠ ""

/-- Python `str.lower()`, modelled character by character. -/
def strLower (s : String) : String := ⟨s.data.map Char.toLower⟩

/-- Python `str.strip()`: drop whitespace from both ends. -/
def strStrip (s : String) : String :=
  ⟨((s.data.dropWhile Char.isWhitespace).reverse.dropWhile Char.isWhitespace).reverse⟩

/-- Does the first character list start with the second? -/
def chHasPre : List Char → List Char → Bool
  | _, [] => true
  | [], _ :: _ => false
  | a :: s, b :: p => a = b && chHasPre s p

/-- Does the character list contain `p` as a contiguous run? -/
def chHasSub (p : List Char) : List Char → Bool
  | [] => chHasPre [] p
  | c :: t => chHasPre (c :: t) p || chHasSub p t

/-- Python `pat in s` on strings. -/
def strHasSub (s pat : String) : Bool := chHasSub pat.data s.data

/-! ### Completeness checker (`stage_1a_completeness.run_completeness_check`) -/

/-- One entry of the statement's `normalized_figures` list: only the
`playbook_id` key matters to the completeness check; it may be absent. -/
structure NormFigure where
  playbook_id : Option String
deriving DecidableEq

/-- The `parsed_statement_data` argument: a falsy payload (`{}`/`None`),
a non-empty dict without the `normalized_figures` key, or a dict that has
a `normalized_figures` list. -/
inductive StatementPayload where
  | empty : StatementPayload
  | noFigures : StatementPayload
  | withFigures (figs : List NormFigure) : StatementPayload
deriving DecidableEq

/-- The optional `details` dict of the completeness result. -/
structure CompletenessDetails where
  missing_ids : Option (List String)
  unexpected_ids : Option (List String)
  reason : Option String
deriving DecidableEq

/-- The completeness result: a `status` string plus optional `details`. -/
structure CompletenessResult where
  status : String
  details : Option CompletenessDetails
deriving DecidableEq

/-- `present_ids`: the set of truthy `playbook_id`s of the figures,
as a deduplicated list. -/
def presentIds (figs : List NormFigure) : List String :=
  ((figs.filterMap fun f => f.playbook_id).filter fun s => s ≠ "").dedup

/-- `run_completeness_check` from
`quality_engine/stage1/stage_1a_completeness.py`. -/
def runCompletenessCheck (parsedStatementData : StatementPayload)
    (expectedLeafIds : List String) : CompletenessResult :=
  match parsedStatementData with
  | .empty | .noFigures =>
    { status := "FAILURE"
      details := some { missing_ids := some expectedLeafIds
                        unexpected_ids := none
                        reason := some "Normalized figures array not found." } }
  | .withFigures figs =>
    let present := presentIds figs
    let expectedSet := expectedLeafIds.dedup
    let unexpected := sortStrings (present.filter fun p => p ∉ expectedSet)
    let missing := expectedSet.filter fun e => e ∉ present
    if missing = [] then
      if unexpected = [] then
        { status := "SUCCESS", details := none }
      else
        { status := "SUCCESS"
          details := some { missing_ids := none
                            unexpected_ids := some unexpected
                            reason := none } }
    else
      { status := "FAILURE"
        details := some { missing_ids := some (sortStrings missing)
                          unexpected_ids := if unexpected = [] then none else some unexpected
                          reason := none } }

/-! ### Taxonomy flattening: the two implementations -/

/-- A taxonomy-playbook node: `id`, optional `children` (missing and `[]`
are both falsy in Python, so a plain list suffices) and an optional
`extractable` flag (defaulting to `True` where it is read). -/
inductive TaxNode where
  | mk (id : String) (extractable : Option Bool) (children : List TaxNode) : TaxNode

def TaxNode.id : TaxNode → String
  | .mk i _ _ => i

def TaxNode.extractable : TaxNode → Option Bool
  | .mk _ e _ => e

def TaxNode.children : TaxNode → List TaxNode
  | .mk _ _ cs => cs

/-- `_get_leaf_ids_recursive` from `quality_engine/playbook_utils.py`:
pre-order collection of childless nodes with `extractable` defaulting to
`True`. -/
def getLeafIdsRecursive : List TaxNode → List String
  | [] => []
  | .mk i e cs :: rest =>
    (if cs.isEmpty then (if e.getD true then [i] else []) else getLeafIdsRecursive cs)
      ++ getLeafIdsRecursive rest
termination_by l => sizeOf l
decreasing_by
  all_goals simp_wf
  all_goals omega

/-- `StatementPlaybookLoader._flatten_leaves` from
`normalization/label_normalizer.py`: pre-order collection of all
childless nodes, with no look at `extractable`. -/
def flattenLeaves : List TaxNode → List String
  | [] => []
  | .mk i _ cs :: rest =>
    (if cs.isEmpty then [i] else flattenLeaves cs) ++ flattenLeaves rest
termination_by l => sizeOf l
decreasing_by
  all_goals simp_wf
  all_goals omega

/-- Spec-side generic leaf collector: pre-order traversal collecting the
childless nodes accepted by the predicate `keep`, mirroring the spec's
words ("a node with children is never collected; a childless node is
collected unless explicitly marked non-extractable" instantiates `keep`
with the extractable flag). -/
def specLeaves (keep : TaxNode → Bool) : List TaxNode → List String
  | [] => []
  | .mk i e cs :: rest =>
    (if cs.isEmpty then (if keep (.mk i e cs) then [i] else []) else specLeaves keep cs)
      ++ specLeaves keep rest
termination_by l => sizeOf l
decreasing_by
  all_goals simp_wf
  all_goals omega

/-- `details.missing_ids` of a completeness result, when present. -/
def CompletenessResult.missingIds (r : CompletenessResult) : Option (List String) :=
  r.details.bind fun d => d.missing_ids

/-- `details.unexpected_ids` of a completeness result, when present. -/
def CompletenessResult.unexpectedIds (r : CompletenessResult) : Option (List String) :=
  r.details.bind fun d => d.unexpected_ids

/-! ### Quality-engine waterfall reset (`quality_engine.trigger_waterfall_resets`) -/

/-- A `QualityEngineRun` row: five `(status, version)` stage pairs plus the
failure reason and detail blob. -/
structure QualityEngineRun where
  doc_id : Nat
  stage_1_status : String
  stage_2_status : String
  stage_3_status : String
  stage_4_status : String
  stage_5_status : String
  stage_1_version : Option String
  stage_2_version : Option String
  stage_3_version : Option String
  stage_4_version : Option String
  stage_5_version : Option String
  failure_reason : Option String
  details : Option String
deriving DecidableEq

/-- The SQL predicate `stage_1_version != CURRENT_STAGE_1_VERSION` under
three-valued logic: a NULL stamped version never matches. -/
def versionDiffers (v : Option String) (current : String) : Bool :=
  match v with
  | some s => s ≠ current
  | none => false

/-- The `values(...)` clause of the reset UPDATE: all five stages back to
PENDING with versions cleared, reason recorded, details cleared. -/
def resetRun (r : QualityEngineRun) : QualityEngineRun :=
  { r with
    stage_1_status := "PENDING", stage_1_version := none
    stage_2_status := "PENDING", stage_2_version := none
    stage_3_status := "PENDING", stage_3_version := none
    stage_4_status := "PENDING", stage_4_version := none
    stage_5_status := "PENDING", stage_5_version := none
    failure_reason := some "Resetting due to new Stage 1 version"
    details := none }

/-- Effect of the UPDATE on a single row: reset when stage 1 is PASSED at a
version other than the current stage-1 version, untouched otherwise. -/
def waterfallRowUpdate (currentStage1Version : String) (r : QualityEngineRun) :
    QualityEngineRun :=
  if r.stage_1_status = "PASSED" ∧ versionDiffers r.stage_1_version currentStage1Version
  then resetRun r else r

/-- `trigger_waterfall_resets`: the single stage-1 UPDATE applied to every
row of the `QualityEngineRun` table (no other stage is checked). -/
def triggerWaterfallResets (currentStage1Version : String)
    (runs : List QualityEngineRun) : List QualityEngineRun :=
  runs.map (waterfallRowUpdate currentStage1Version)

/-! ### Unit normalizer (`normalization/unit_normalizer.py`) -/

/-- One figure of a statement analysis in the oracle's unit response. -/
structure OracleFigure where
  label : String
  value : Int
  representation : String
  currency_context : Option String
  ratio_context : Option String
  confidence : String
  reasoning : Option String
deriving DecidableEq

/-- One `statement_analyses` entry of the oracle's unit response. -/
structure OracleStatement where
  statement_type : String
  standard_mapping : String
  statement_currency : Option String
  figures : List OracleFigure
deriving DecidableEq

/-- The `filing_analysis` section (only the review flag is read;
`.get('requires_human_review', False)` defaults it). -/
structure FilingAnalysis where
  requires_human_review : Option Bool
deriving DecidableEq

/-- A parsed unit-analysis response (both required sections present). -/
structure UnitAnalysis where
  filing_analysis : FilingAnalysis
  statement_analyses : List OracleStatement
deriving DecidableEq

/-- One entry of the `suspicious_figures` list built by
`determine_review_requirement`. -/
structure SuspiciousFigure where
  statement_type : String
  standard_mapping : String
  label : String
  value : Int
  representation : String
  reasoning : String
deriving DecidableEq

/-- The projection of a low-confidence figure into `suspicious_figures`. -/
def suspiciousOf (sa : OracleStatement) (f : OracleFigure) : SuspiciousFigure :=
  { statement_type := sa.statement_type
    standard_mapping := sa.standard_mapping
    label := f.label
    value := f.value
    representation := f.representation
    reasoning := f.reasoning.getD "Low confidence from LLM" }

/-- `determine_review_requirement`: collect the low-confidence figures and
require review iff there is at least one or the filing-level flag is set. -/
def determineReviewRequirement (analysis : UnitAnalysis) :
    Bool × List SuspiciousFigure :=
  let suspicious := analysis.statement_analyses.flatMap fun sa =>
    (sa.figures.filter fun f => f.confidence = "low").map (suspiciousOf sa)
  (decide (suspicious.length > 0) ||
    analysis.filing_analysis.requires_human_review.getD false, suspicious)

/-- One figure of the statement-normalized payload (label plus the optional
`suspect` provenance flags). -/
structure StmtNormFigure where
  label : String
  suspect : Option Bool
  suspect_reason : Option String
deriving DecidableEq

/-- One statement of the statement-normalized payload. -/
structure StmtNormContent where
  figures : List StmtNormFigure
deriving DecidableEq

/-- The `statement_normalized_data` section: statement dicts per scope. -/
structure StatementNormalizedData where
  standalone : List (String × StmtNormContent)
  consolidated : List (String × StmtNormContent)
deriving DecidableEq

/-- One entry of the final `label_normalized_data` maps. -/
structure FinalFigure where
  value : Int
  representation : String
  currency_context : Option String
  suspect : Bool
  suspect_reason : Option String
deriving DecidableEq

/-- The final two-scope canonical map built by label application. -/
structure LabelNormalizedData where
  standalone : List (String × FinalFigure)
  consolidated : List (String × FinalFigure)
deriving DecidableEq

/-- The nested `normalized_data` JSONB payload of `StagedNormalizedData`:
`unit_normalized_data` models the `{'llm_unit_analysis': …}` wrapper. -/
structure NormalizedPayload where
  statement_normalized_data : StatementNormalizedData
  unit_normalized_data : Option UnitAnalysis
  label_normalized_data : Option LabelNormalizedData
deriving DecidableEq

/-- A `UnitReviewQueue` row as created by discovery (`llm_analysis` plus
the `filing_data` aggregate fields). -/
structure UnitReviewRow where
  doc_id : Nat
  llm_analysis : UnitAnalysis
  suspicious_figures : List SuspiciousFigure
  total_figures_analyzed : Nat
  low_confidence_count : Nat
deriving DecidableEq

/-- The outcome of processing one document through unit discovery: the
returned status string, the queue row created (if any) and the resulting
payload. -/
structure UnitDiscoveryOutcome where
  status : String
  reviewRow : Option UnitReviewRow
  payload : NormalizedPayload
deriving DecidableEq

/-- `process_unit_normalization_discovery` for a document whose staged and
parsed rows exist; `analysisResult` is the oracle analysis or the error
raised while obtaining it (in which case the exception handler returns
`'PENDING'` and leaves the payload untouched). -/
def processUnitNormalizationDiscovery (docId : Nat) (payload : NormalizedPayload)
    (analysisResult : Except String UnitAnalysis) : UnitDiscoveryOutcome :=
  match analysisResult with
  | .error _ => { status := "PENDING", reviewRow := none, payload := payload }
  | .ok analysis =>
    let rr := determineReviewRequirement analysis
    if rr.1 then
      { status := "PENDING_REVIEW"
        reviewRow := some
          { doc_id := docId
            llm_analysis := analysis
            suspicious_figures := rr.2
            total_figures_analyzed :=
              (analysis.statement_analyses.map fun s => s.figures.length).sum
            low_confidence_count := rr.2.length }
        payload := payload }
    else
      { status := "AUTO_APPROVED", reviewRow := none
        payload := { payload with unit_normalized_data := some analysis } }

/-- The `doc_ids[:0]` slice in `run_unit_normalizer_discovery`
("Using temporary slice for testing"). -/
def docIdsToProcess (docIds : List Nat) : List Nat := docIds.take 0

/-- The document ids actually processed by one run of
`run_unit_normalizer_discovery`. -/
def runUnitNormalizerDiscoveryIds (allowLlm : Bool) (pendingDocIds : List Nat) :
    List Nat :=
  if allowLlm = false then [] else docIdsToProcess pendingDocIds

/-! ### Oracle retry loop (`llm/normalizer_client.call_gemini_with_retry`) -/

def LLM_MAX_RETRIES : Nat := 3

def LLM_INITIAL_BACKOFF : Nat := 5

/-- The retry loop from attempt index `i` with `remaining` attempts left:
returns the final result together with the list of backoff waits taken
(`LLM_INITIAL_BACKOFF * 2 ^ attempt` seconds before each retry). -/
def retryFrom (att : Nat → Except String String) (i remaining : Nat) :
    Except String String × List Nat :=
  match remaining with
  | 0 => (.error "LLM call failed after all retry attempts.", [])
  | r + 1 =>
    match att i with
    | .ok s => (.ok s, [])
    | .error e =>
      if r = 0 then (.error e, [])
      else
        let rest := retryFrom att (i + 1) r
        (rest.1, LLM_INITIAL_BACKOFF * 2 ^ i :: rest.2)

/-- `call_gemini_with_retry`, with the outcome of each API attempt given by
`att`. -/
def callGeminiWithRetry (att : Nat → Except String String) :
    Except String String × List Nat :=
  retryFrom att 0 LLM_MAX_RETRIES

/-! ### Label-mapping cache (`storage.database` label-mapping helpers) -/

/-- A `LabelMapping` cache row, keyed by `(raw_label, industry)`. -/
structure LabelMapping where
  raw_label : String
  industry : String
  normalized_label : Option String
  status : String
deriving DecidableEq

/-- `get_label_mapping`: lookup by the composite key. -/
def getLabelMapping : List LabelMapping → String → String → Option LabelMapping
  | [], _, _ => none
  | m :: rest, l, i =>
    if m.raw_label = l ∧ m.industry = i then some m else getLabelMapping rest l i

/-- `upsert_label_mapping`: insert, or on key conflict update the mutable
fields (`normalized_label`, `status`) of the existing row. -/
def upsertLabelMapping : List LabelMapping → LabelMapping → List LabelMapping
  | [], row => [row]
  | m :: rest, row =>
    if m.raw_label = row.raw_label ∧ m.industry = row.industry then
      { m with normalized_label := row.normalized_label, status := row.status } :: rest
    else m :: upsertLabelMapping rest row

/-- The composite keys of the cache rows. -/
def cacheKeys (cache : List LabelMapping) : List (String × String) :=
  cache.map fun m => (m.raw_label, m.industry)

/-- The cache's uniqueness constraint on `(raw_label, industry)`. -/
def uniqueKeys (cache : List LabelMapping) : Prop := (cacheKeys cache).Nodup

/-! ### Label normalizer discovery (`label_normalizer.run_label_normalizer_discovery`) -/

/-- The statement-key heuristic of the discovery loop: map the oracle's
`standard_mapping` (lowercased) to a playbook statement key, with the
keyword heuristic choosing between the two cash-flow methods; `none` means
"Unknown statement mapping", which skips the batch. -/
def stmtKeyOf (sa : OracleStatement) : Option String :=
  let stdLower := strLower sa.standard_mapping
  if strHasSub stdLower "pnl" || strHasSub stdLower "income" then some "pnl"
  else if strHasSub stdLower "balance" then some "balance_sheet"
  else if strHasSub stdLower "cash" then
    let labelsText := String.intercalate " " (sa.figures.map fun f => strLower f.label)
    if strHasSub labelsText "profit before" || strHasSub labelsText "extraordinary" ||
        strHasSub labelsText "adjustments" || strHasSub labelsText "working capital" then
      some "cash_flow_indirect"
    else if strHasSub labelsText "receipts from" || strHasSub labelsText "payments to" ||
        strHasSub labelsText "operating activities - receipts" then
      some "cash_flow_direct"
    else some "cash_flow_indirect"
  else none

/-- `raw_labels_this_stmt`: the distinct stripped labels of the statement's
figures with a truthy label. -/
def rawLabelsOfStmt (sa : OracleStatement) : List String :=
  (((sa.figures.filter fun f => f.label ≠ "").map fun f => strStrip f.label)).dedup

/-- The batched label-discovery oracle request (`context_payload`). -/
structure LabelOracleRequest where
  industry : String
  statement_key : String
  statement_name : String
  statement_currency : Option String
  standard_names : List String
  raw_labels : List String
deriving DecidableEq

/-- The oracle behaviour: a response maps each raw label to a canonical id
or `null`; an exception is an `error`. -/
def LabelOracle : Type :=
  LabelOracleRequest → Except String (List (String × Option String))

/-- The conditions under which the discovery loop skips a statement without
consulting the cache: no figures, unknown statement mapping, or an empty
playbook vocabulary for its key. -/
def stmtSkipped (leaves : String → List String) (sa : OracleStatement) : Bool :=
  sa.figures.isEmpty ||
    match stmtKeyOf sa with
    | none => true
    | some k => (leaves k).isEmpty

/-- The cache row written for one returned `(raw_label, mapping)` pair:
status PENDING_REVIEW, including an explicit `null` mapping. -/
def discRow (industry : String) (p : String × Option String) : LabelMapping :=
  { raw_label := p.1
    industry := industry
    normalized_label := p.2
    status := "PENDING_REVIEW" }

/-- `new_labels_to_process`: the statement's distinct raw labels neither
already processed in this run nor present in the cache. -/
def newLabelsOf (industry : String)
    (st : List LabelMapping × List LabelOracleRequest × List (String × String))
    (sa : OracleStatement) : List String :=
  (rawLabelsOfStmt sa).filter fun l =>
    (l, industry) ∉ st.2.2 ∧ getLabelMapping st.1 l industry = none

/-- The oracle request built for one statement's batch of new labels. -/
def discReq (leaves : String → List String) (industry : String)
    (st : List LabelMapping × List LabelOracleRequest × List (String × String))
    (sa : OracleStatement) (stmtKey : String) : LabelOracleRequest :=
  { industry := industry
    statement_key := stmtKey
    statement_name := sa.statement_type
    statement_currency := sa.statement_currency
    standard_names := leaves stmtKey
    raw_labels := newLabelsOf industry st sa }

/-- The per-statement body of the discovery loop, threading
`(cache, oracle calls made, processed_in_this_run)`. An oracle exception is
caught and logged: no rows are upserted for that statement. -/
def discoverStmt (oracle : LabelOracle) (leaves : String → List String)
    (allowLlm : Bool) (industry : String)
    (st : List LabelMapping × List LabelOracleRequest × List (String × String))
    (sa : OracleStatement) :
    List LabelMapping × List LabelOracleRequest × List (String × String) :=
  if sa.figures.isEmpty then st else
  match stmtKeyOf sa with
  | none => st
  | some stmtKey =>
    if (leaves stmtKey).isEmpty then st else
    if (newLabelsOf industry st sa).isEmpty then st else
    if allowLlm = false then st else
    match oracle (discReq leaves industry st sa stmtKey) with
    | .error _ => (st.1, st.2.1 ++ [discReq leaves industry st sa stmtKey], st.2.2)
    | .ok mappings =>
      (mappings.foldl (fun c p => upsertLabelMapping c (discRow industry p)) st.1,
        st.2.1 ++ [discReq leaves industry st sa stmtKey],
        st.2.2 ++ mappings.map fun p => (p.1, industry))

/-- One document's pass through the discovery phase: run every statement
analysis through `discoverStmt`, then mark the document PENDING_REVIEW —
unconditionally, unless there were no statement analyses at all (that case
`continue`s before the append). Returns the new cache, the oracle calls
made, and the document's resulting `label_review_status`. -/
def runLabelDiscoveryDoc (oracle : LabelOracle) (leaves : String → List String)
    (allowLlm : Bool) (industry : String) (cache : List LabelMapping)
    (analyses : List OracleStatement) (labelReviewStatus : String) :
    List LabelMapping × List LabelOracleRequest × String :=
  if analyses.isEmpty then (cache, [], labelReviewStatus)
  else
    let res := analyses.foldl (discoverStmt oracle leaves allowLlm industry)
      (cache, [], [])
    (res.1, res.2.1, "PENDING_REVIEW")

/-- A statement is settled for a given cache state: either the discovery
loop skips it outright, or every one of its distinct raw labels is already
cached. -/
def Saturated (leaves : String → List String) (industry : String)
    (cache : List LabelMapping) (sa : OracleStatement) : Prop :=
  stmtSkipped leaves sa = true ∨
    ∀ l ∈ rawLabelsOfStmt sa, (getLabelMapping cache l industry).isSome = true

/-- Every `(label, industry)` pair recorded in `processed_in_this_run` is
backed by a cache row. -/
def ProcessedCached (industry : String)
    (st : List LabelMapping × List LabelOracleRequest × List (String × String)) :
    Prop :=
  ∀ pr ∈ st.2.2, pr.2 = industry →
    (getLabelMapping st.1 pr.1 industry).isSome = true

/-! ### Label normalizer application (`label_normalizer.run_label_normalizer_application`) -/

/-- A `StagedNormalizedData` row as seen by the label phases. -/
structure StagedDoc where
  doc_id : Nat
  ticker : String
  label_review_status : String
  normalized_data : NormalizedPayload
deriving DecidableEq

/-- The statement analyses of the document's stored unit analysis
(`normalized_data['unit_normalized_data']['llm_unit_analysis']`), empty
when the section is missing. -/
def docAnalyses (doc : StagedDoc) : List OracleStatement :=
  (doc.normalized_data.unit_normalized_data.map fun a => a.statement_analyses).getD []

/-- `all_raw_labels`: the distinct figure labels across all statement
analyses of the document. -/
def docRawLabels (doc : StagedDoc) : List String :=
  ((docAnalyses doc).flatMap fun sa => sa.figures.map fun f => f.label).dedup

/-- The "Critical Check": every distinct raw label has a cache entry with
status exactly APPROVED. -/
def allLabelsApproved (cache : List LabelMapping) (industry : String)
    (doc : StagedDoc) : Bool :=
  (docRawLabels doc).all fun l =>
    match getLabelMapping cache l industry with
    | some m => m.status = "APPROVED"
    | none => false

/-- `approved_mappings.get(raw_label)` in the all-approved branch: the
cached normalized label (possibly `null`). -/
def approvedMappingGet (cache : List LabelMapping) (industry l : String) :
    Option String :=
  match getLabelMapping cache l industry with
  | some m => m.normalized_label
  | none => none

/-- The `original_figures` lookup dict built from both scopes of the
statement-normalized payload; a later write wins, as in a Python dict. -/
def lookupOrigFigure (d : StatementNormalizedData) (label : String) :
    Option StmtNormFigure :=
  (((d.standalone.flatMap fun p => p.2.figures) ++
      (d.consolidated.flatMap fun p => p.2.figures)).reverse).find?
    fun f => f.label = label

/-- Python dict assignment `final_data[scope][normalized_label] = entry`:
overwrite in place or append. -/
def dictInsert (d : List (String × FinalFigure)) (k : String) (v : FinalFigure) :
    List (String × FinalFigure) :=
  if d.any fun p => p.1 = k then d.map fun p => if p.1 = k then (k, v) else p
  else d ++ [(k, v)]

/-- The entry written for one figure, carrying the original `suspect`
provenance flags through unchanged. -/
def finalEntryFor (d : StatementNormalizedData) (fig : OracleFigure) : FinalFigure :=
  { value := fig.value
    representation := fig.representation
    currency_context := fig.currency_context
    suspect := ((lookupOrigFigure d fig.label).bind fun f => f.suspect).getD false
    suspect_reason := (lookupOrigFigure d fig.label).bind fun f => f.suspect_reason }

/-- The final two-scope structure built in the all-approved branch: only
figures whose approved mapping is truthy (not `null`, not empty) are
included. -/
def buildFinalData (cache : List LabelMapping) (industry : String)
    (doc : StagedDoc) : LabelNormalizedData :=
  (docAnalyses doc).foldl
    (fun acc sa =>
      sa.figures.foldl
        (fun acc2 fig =>
          match approvedMappingGet cache industry fig.label with
          | none => acc2
          | some nl =>
            if nl = "" then acc2
            else
              let entry := finalEntryFor doc.normalized_data.statement_normalized_data fig
              if strHasSub sa.standard_mapping "standalone" then
                { acc2 with standalone := dictInsert acc2.standalone nl entry }
              else
                { acc2 with consolidated := dictInsert acc2.consolidated nl entry })
        acc)
    { standalone := [], consolidated := [] }

/-- One document's pass through `run_label_normalizer_application`: the
sweep only sees documents with `label_review_status = PENDING_REVIEW`; a
document passes the critical check iff every distinct raw label is cached
APPROVED, in which case the final structure is written and the document is
marked APPROVED; otherwise the document is skipped untouched. -/
def applyLabelDoc (cache : List LabelMapping) (industry : String)
    (doc : StagedDoc) : StagedDoc :=
  if doc.label_review_status = "PENDING_REVIEW" then
    if allLabelsApproved cache industry doc then
      { doc with
        label_review_status := "APPROVED"
        normalized_data :=
          { doc.normalized_data with
            label_normalized_data := some (buildFinalData cache industry doc) } }
    else doc
  else doc

/-! ### Concrete demonstration inputs used by witnesses and counterexamples -/

/-- A run whose stage 2 is PASSED at a stamped version `"v1.0"` while its
stage 1 is PASSED at the current stage-1 version: drift at stage 2 only. -/
def driftedStage2Run : QualityEngineRun :=
  { doc_id := 7
    stage_1_status := "PASSED"
    stage_2_status := "PASSED"
    stage_3_status := "PENDING"
    stage_4_status := "PENDING"
    stage_5_status := "PENDING"
    stage_1_version := some "s1_v1.0"
    stage_2_version := some "v1.0"
    stage_3_version := none
    stage_4_version := none
    stage_5_version := none
    failure_reason := none
    details := none }

/-- A run with stage 1 PASSED at `"v1"`, to be swept at current version
`"v2"`. -/
def driftedStage1Run : QualityEngineRun :=
  { doc_id := 1
    stage_1_status := "PASSED"
    stage_2_status := "PASSED"
    stage_3_status := "PENDING"
    stage_4_status := "PENDING"
    stage_5_status := "PENDING"
    stage_1_version := some "v1"
    stage_2_version := some "v1"
    stage_3_version := none
    stage_4_version := none
    stage_5_version := none
    failure_reason := none
    details := none }

/-- A figure the oracle classified with low confidence. -/
def demoLowFigure : OracleFigure :=
  { label := "Revenue"
    value := 100
    representation := "currency"
    currency_context := some "in lacs"
    ratio_context := none
    confidence := "low"
    reasoning := some "ambiguous" }

/-- A statement analysis containing exactly one low-confidence figure. -/
def demoLowStatement : OracleStatement :=
  { statement_type := "P&L"
    standard_mapping := "standalone_pnl"
    statement_currency := some "in lacs"
    figures := [demoLowFigure] }

/-- A filing analysis with one low-confidence figure and no filing-level
review flag. -/
def demoLowAnalysis : UnitAnalysis :=
  { filing_analysis := { requires_human_review := some false }
    statement_analyses := [demoLowStatement] }

/-- An empty staged payload. -/
def demoEmptyPayload : NormalizedPayload :=
  { statement_normalized_data := { standalone := [], consolidated := [] }
    unit_normalized_data := none
    label_normalized_data := none }

/-- A high-confidence currency figure with the given label. -/
def mkHighFigure (label : String) : OracleFigure :=
  { label := label
    value := 1
    representation := "currency"
    currency_context := some "in lacs"
    ratio_context := none
    confidence := "high"
    reasoning := none }

/-- A standalone-P&L statement analysis with three distinct raw labels. -/
def demoBankStatement : OracleStatement :=
  { statement_type := "Statement of Profit and Loss"
    standard_mapping := "standalone_pnl"
    statement_currency := some "in lacs"
    figures :=
      [mkHighFigure "Interest Earned", mkHighFigure "Other Income",
        mkHighFigure "Operating Expenses"] }

/-- A staged document carrying `demoBankStatement` in its unit analysis,
awaiting label review. -/
def demoLabelDoc : StagedDoc :=
  { doc_id := 5
    ticker := "HDFCBANK"
    label_review_status := "PENDING_REVIEW"
    normalized_data :=
      { statement_normalized_data := { standalone := [], consolidated := [] }
        unit_normalized_data := some
          { filing_analysis := { requires_human_review := some false }
            statement_analyses := [demoBankStatement] }
        label_normalized_data := none } }

/-- Cache with two of the document's three labels APPROVED and one still
PENDING_REVIEW. -/
def demoCachePartial : List LabelMapping :=
  [{ raw_label := "Interest Earned", industry := "Banking"
     normalized_label := some "interest_earned", status := "APPROVED" },
   { raw_label := "Other Income", industry := "Banking"
     normalized_label := some "other_income", status := "APPROVED" },
   { raw_label := "Operating Expenses", industry := "Banking"
     normalized_label := some "operating_expenses", status := "PENDING_REVIEW" }]

/-- Cache with all three of the document's labels APPROVED. -/
def demoCacheFull : List LabelMapping :=
  [{ raw_label := "Interest Earned", industry := "Banking"
     normalized_label := some "interest_earned", status := "APPROVED" },
   { raw_label := "Other Income", industry := "Banking"
     normalized_label := some "other_income", status := "APPROVED" },
   { raw_label := "Operating Expenses", industry := "Banking"
     normalized_label := some "operating_expenses", status := "APPROVED" }]

/-- A staged document with a single raw label, for the null-mapping case. -/
def demoNullDoc : StagedDoc :=
  { doc_id := 6
    ticker := "ICICIBANK"
    label_review_status := "PENDING_REVIEW"
    normalized_data :=
      { statement_normalized_data := { standalone := [], consolidated := [] }
        unit_normalized_data := some
          { filing_analysis := { requires_human_review := some false }
            statement_analyses :=
              [{ statement_type := "Statement of Profit and Loss"
                 standard_mapping := "standalone_pnl"
                 statement_currency := some "in lacs"
                 figures := [mkHighFigure "Misc Item"] }] }
        label_normalized_data := none } }

/-- Cache holding the null-doc's single label as APPROVED with a `null`
normalized label. -/
def demoNullCache : List LabelMapping :=
  [{ raw_label := "Misc Item", industry := "Banking"
     normalized_label := none, status := "APPROVED" }]

/-- An oracle whose every call raises (e.g. a timeout after retries). -/
def failingLabelOracle : LabelOracle := fun _ => .error "503 Service Unavailable"

/-- An oracle that succeeds and returns a mapping for every requested
label. -/
def coveringLabelOracle : LabelOracle := fun req =>
  .ok (req.raw_labels.map fun l => (l, some "interest_earned"))

/-- Playbook leaves for the banking P&L statement. -/
def demoLeaves : String → List String := fun k =>
  if k = "pnl" then ["interest_earned", "other_income", "operating_expenses"] else []

/-! ## Theorems about the completeness checker -/

theorem mem_sortStrings {l : List String} {x : String} : x ∈ sortStrings l ↔ x ∈ l :=
  List.mem_insertionSort _

theorem sorted_sortStrings (l : List String) : (sortStrings l).Sorted (· ≤ ·) :=
  List.sorted_insertionSort _ l

theorem nodup_sortStrings {l : List String} (h : l.Nodup) : (sortStrings l).Nodup :=
  ((List.perm_insertionSort _ l).nodup_iff).mpr h

/-- Induction principle for lists of taxonomy nodes that also descends
into children. -/
theorem taxNodeList_ind (P : List TaxNode → Prop)
    (h0 : P [])
    (h1 : ∀ (n : TaxNode) (rest : List TaxNode),
      P n.children → P rest → P (n :: rest)) :
    ∀ nodes : List TaxNode, P nodes
  | [] => h0
  | .mk i e cs :: rest =>
    h1 (.mk i e cs) rest (taxNodeList_ind P h0 h1 cs) (taxNodeList_ind P h0 h1 rest)
termination_by nodes => sizeOf nodes
decreasing_by
  all_goals simp_wf
  all_goals omega

theorem presentIds_nodup (figs : List NormFigure) : (presentIds figs).Nodup :=
  List.nodup_dedup _

theorem sortStrings_eq_nil_iff {l : List String} : sortStrings l = [] ↔ l = [] := by
  constructor
  · intro h
    have hp : l.Perm (sortStrings l) := (List.perm_insertionSort _ l).symm
    rw [h] at hp
    exact hp.eq_nil
  · intro h
    subst h
    rfl

theorem completeness_missing_nil_iff (figs : List NormFigure) (E : List String) :
    ((E.dedup.filter fun e => e ∉ presentIds figs) = []) ↔
      ∀ e ∈ E, e ∈ presentIds figs := by
  simp [List.filter_eq_nil_iff]

/-- C1: for a payload with a `normalized_figures` list, with expected list `E`
and present-id set `P`, the status is SUCCESS iff every expected id is
present (so extra present ids never by themselves cause FAILURE); when an
expected id is absent, `details.missing_ids` is exactly the sorted,
duplicate-free list of `E − P`; and when `P − E` is non-empty,
`details.unexpected_ids` is exactly the sorted, duplicate-free list of
`P − E`. -/
theorem completeness_check_correct (figs : List NormFigure) (E : List String) :
    ((runCompletenessCheck (.withFigures figs) E).status = "SUCCESS" ↔
       ∀ e ∈ E, e ∈ presentIds figs) ∧
    ((∃ e ∈ E, e ∉ presentIds figs) →
       ∃ m, (runCompletenessCheck (.withFigures figs) E).missingIds = some m ∧
         m.Sorted (· ≤ ·) ∧ m.Nodup ∧
         ∀ x, x ∈ m ↔ x ∈ E ∧ x ∉ presentIds figs) ∧
    ((∃ p ∈ presentIds figs, p ∉ E) →
       ∃ u, (runCompletenessCheck (.withFigures figs) E).unexpectedIds = some u ∧
         u.Sorted (· ≤ ·) ∧ u.Nodup ∧
         ∀ x, x ∈ u ↔ x ∈ presentIds figs ∧ x ∉ E) := by
  classical
  refine ⟨?_, ?_, ?_⟩
  · by_cases h : (E.dedup.filter fun e => e ∉ presentIds figs) = []
    · have hall := (completeness_missing_nil_iff figs E).mp h
      simp only [runCompletenessCheck, h, if_pos]
      split <;> simpa using hall
    · have hnall := fun hc => h ((completeness_missing_nil_iff figs E).mpr hc)
      simp only [runCompletenessCheck, if_neg h]
      simpa using hnall
  · intro hex
    have h : (E.dedup.filter fun e => e ∉ presentIds figs) ≠ [] := by
      intro hc
      obtain ⟨e, heE, heP⟩ := hex
      exact heP ((completeness_missing_nil_iff figs E).mp hc e heE)
    refine ⟨sortStrings (E.dedup.filter fun e => e ∉ presentIds figs), ?_, ?_, ?_, ?_⟩
    · simp only [runCompletenessCheck, if_neg h]
      rfl
    · exact sorted_sortStrings _
    · exact nodup_sortStrings ((List.nodup_dedup E).filter _)
    · intro x
      simp [mem_sortStrings, List.mem_filter]
  · intro hex
    have hune : (sortStrings ((presentIds figs).filter fun p => p ∉ E.dedup)) ≠ [] := by
      rw [Ne, sortStrings_eq_nil_iff]
      intro hc
      obtain ⟨p, hpP, hpE⟩ := hex
      have : p ∈ (presentIds figs).filter fun p => p ∉ E.dedup := by
        simp [List.mem_filter, hpP, hpE]
      rw [hc] at this
      exact absurd this (List.not_mem_nil p)
    refine ⟨sortStrings ((presentIds figs).filter fun p => p ∉ E.dedup), ?_, ?_, ?_, ?_⟩
    · by_cases h : (E.dedup.filter fun e => e ∉ presentIds figs) = [] <;>
        simp only [runCompletenessCheck, h, if_pos, if_neg, if_neg hune,
          CompletenessResult.unexpectedIds, Option.bind_some] <;>
        simp [hune]
    · exact sorted_sortStrings _
    · exact nodup_sortStrings ((presentIds_nodup figs).filter _)
    · intro x
      simp [mem_sortStrings, List.mem_filter]

/-- C1 witness: the spec's worked example — expected leaves
`["other_exp", "revenue", "staff_cost"]`, present `{"revenue", "staff_cost"}` —
instantiating the completeness-correctness theorem with its hypothesis
discharged concretely. -/
theorem completeness_check_correct_witness :
    ∃ m, (runCompletenessCheck
        (.withFigures [⟨some "revenue"⟩, ⟨some "staff_cost"⟩])
        ["other_exp", "revenue", "staff_cost"]).missingIds = some m ∧
      m.Sorted (· ≤ ·) ∧ m.Nodup ∧
      ∀ x, x ∈ m ↔ x ∈ ["other_exp", "revenue", "staff_cost"] ∧
        x ∉ presentIds [⟨some "revenue"⟩, ⟨some "staff_cost"⟩] :=
  (completeness_check_correct [⟨some "revenue"⟩, ⟨some "staff_cost"⟩]
    ["other_exp", "revenue", "staff_cost"]).2.1
    (by decide)

/-- C8: with an empty payload or one lacking the `normalized_figures` key,
the completeness check returns FAILURE with `details.missing_ids` equal to
the full expected leaf-id list — never a SUCCESS from an empty diff. -/
theorem completeness_no_figures_fails (E : List String) :
    (runCompletenessCheck .empty E).status = "FAILURE" ∧
    (runCompletenessCheck .empty E).missingIds = some E ∧
    (runCompletenessCheck .noFigures E).status = "FAILURE" ∧
    (runCompletenessCheck .noFigures E).missingIds = some E := by
  simp [runCompletenessCheck, CompletenessResult.missingIds]

/-! ## Theorems about the taxonomy flatteners -/

/-- C9 counterexample: a childless node explicitly marked
`extractable: false` is skipped by the quality-engine collector but still
collected by the label-mapper playbook loader, so the claim that both
implementations collect exactly the childless nodes not marked
non-extractable is false. -/
theorem flattenLeaves_collects_nonextractable_leaf :
    (TaxNode.mk "x" (some false) []).children = [] ∧
    (TaxNode.mk "x" (some false) []).extractable = some false ∧
    flattenLeaves [TaxNode.mk "x" (some false) []] = ["x"] ∧
    getLeafIdsRecursive [TaxNode.mk "x" (some false) []] = [] := by
  refine ⟨rfl, rfl, ?_, ?_⟩ <;>
    simp [flattenLeaves, getLeafIdsRecursive]

/-- C9 amended: both flatteners are pre-order traversals that never
collect a node with children; the quality-engine collector
(`_get_leaf_ids_recursive`) collects exactly the childless nodes not
explicitly marked non-extractable, while the label-mapper playbook loader
(`_flatten_leaves`) collects every childless node, ignoring the
`extractable` flag. -/
theorem flatteners_eq_specLeaves (nodes : List TaxNode) :
    getLeafIdsRecursive nodes = specLeaves (fun n => n.extractable.getD true) nodes ∧
    flattenLeaves nodes = specLeaves (fun _ => true) nodes := by
  induction nodes using taxNodeList_ind with
  | h0 => constructor <;> simp [getLeafIdsRecursive, flattenLeaves, specLeaves]
  | h1 n rest ihc ihr =>
    obtain ⟨i, e, cs⟩ := n
    simp only [TaxNode.children] at ihc
    constructor
    · simp [getLeafIdsRecursive, specLeaves, TaxNode.extractable, ihc.1, ihr.1]
    · simp [flattenLeaves, specLeaves, ihc.2, ihr.2]

/-! ## Theorems about the waterfall reset -/

theorem waterfallRowUpdate_idem (cur : String) (r : QualityEngineRun) :
    waterfallRowUpdate cur (waterfallRowUpdate cur r) = waterfallRowUpdate cur r := by
  by_cases h : r.stage_1_status = "PASSED" ∧ versionDiffers r.stage_1_version cur = true
  · simp [waterfallRowUpdate, h, resetRun]
  · simp [waterfallRowUpdate, h]

/-- C3 counterexample: `trigger_waterfall_resets` only checks stage 1. A
run whose stage 2 is PASSED at version `"v1.0"`, different from a deployed
stage-2 version `"v2.0"`, is left completely unchanged by one execution of
the sweep — stage 2 does not become PENDING and its version is not
cleared, contradicting the claim's "for every stage k". -/
theorem waterfall_ignores_stage2_drift :
    driftedStage2Run.stage_2_status = "PASSED" ∧
    driftedStage2Run.stage_2_version = some "v1.0" ∧
    ("v1.0" : String) ≠ "v2.0" ∧
    triggerWaterfallResets "s1_v1.0" [driftedStage2Run] = [driftedStage2Run] ∧
    driftedStage2Run.stage_2_status ≠ "PENDING" := by
  refine ⟨rfl, rfl, by decide, ?_, by decide⟩
  simp [triggerWaterfallResets, waterfallRowUpdate, driftedStage2Run, versionDiffers]

/-- C3 amended: the sweep implements the waterfall for stage 1 only. For
every run whose stage 1 is PASSED with a stamped version different from
the current stage-1 version, one execution resets stages 1–5 to PENDING
with versions cleared and records the reason string; runs not matching the
stage-1 condition are untouched (drift in stages 2–5 alone triggers no
reset); and a second execution with no further drift changes nothing. -/
theorem waterfall_stage1_reset_correct (cur : String) (r : QualityEngineRun)
    (v : String) (h1 : r.stage_1_status = "PASSED")
    (hv : r.stage_1_version = some v) (hne : v ≠ cur) :
    waterfallRowUpdate cur r = resetRun r ∧
    (resetRun r).stage_1_status = "PENDING" ∧
    (resetRun r).stage_2_status = "PENDING" ∧
    (resetRun r).stage_3_status = "PENDING" ∧
    (resetRun r).stage_4_status = "PENDING" ∧
    (resetRun r).stage_5_status = "PENDING" ∧
    (resetRun r).stage_1_version = none ∧
    (resetRun r).stage_2_version = none ∧
    (resetRun r).stage_3_version = none ∧
    (resetRun r).stage_4_version = none ∧
    (resetRun r).stage_5_version = none ∧
    (resetRun r).failure_reason = some "Resetting due to new Stage 1 version" ∧
    (resetRun r).doc_id = r.doc_id ∧
    (∀ r' : QualityEngineRun,
      ¬(r'.stage_1_status = "PASSED" ∧ versionDiffers r'.stage_1_version cur = true) →
        waterfallRowUpdate cur r' = r') ∧
    (∀ runs : List QualityEngineRun,
      triggerWaterfallResets cur (triggerWaterfallResets cur runs) =
        triggerWaterfallResets cur runs) := by
  refine ⟨?_, rfl, rfl, rfl, rfl, rfl, rfl, rfl, rfl, rfl, rfl, rfl, rfl, ?_, ?_⟩
  · simp [waterfallRowUpdate, h1, versionDiffers, hv, hne]
  · intro r' h
    simp [waterfallRowUpdate, h]
  · intro runs
    simp only [triggerWaterfallResets, List.map_map]
    apply List.map_congr_left
    intro r' _
    exact waterfallRowUpdate_idem cur r'

/-- C3 amended witness: a concrete run with stage 1 PASSED at `"v1"` while
the current stage-1 version is `"v2"`, instantiating the stage-1 waterfall
theorem. -/
theorem waterfall_stage1_reset_correct_witness :
    waterfallRowUpdate "v2" driftedStage1Run = resetRun driftedStage1Run :=
  (waterfall_stage1_reset_correct "v2" driftedStage1Run "v1" rfl rfl (by decide)).1

/-! ## Theorems about the unit normalizer -/

/-- C4: for a document processed by unit discovery with analysis result
`analysis`, review is required iff some figure has confidence `low` or the
filing-level flag requests review; in the review case exactly one queue
row is created whose `suspicious_figures` are exactly the low-confidence
figures, with `low_confidence_count` equal to that list's length, the
status is PENDING_REVIEW and the payload is untouched; otherwise the
status is AUTO_APPROVED, the analysis is merged into the payload and no
queue row is created. -/
theorem unit_review_gating (docId : Nat) (payload : NormalizedPayload)
    (analysis : UnitAnalysis) :
    (((processUnitNormalizationDiscovery docId payload (.ok analysis)).status =
        "PENDING_REVIEW") ↔
      ((∃ sa ∈ analysis.statement_analyses, ∃ f ∈ sa.figures, f.confidence = "low") ∨
        analysis.filing_analysis.requires_human_review.getD false = true)) ∧
    (∀ sf, sf ∈ (determineReviewRequirement analysis).2 ↔
      ∃ sa ∈ analysis.statement_analyses, ∃ f ∈ sa.figures,
        f.confidence = "low" ∧ sf = suspiciousOf sa f) ∧
    ((processUnitNormalizationDiscovery docId payload (.ok analysis)).status =
        "PENDING_REVIEW" →
      (processUnitNormalizationDiscovery docId payload (.ok analysis)).reviewRow =
        some
          { doc_id := docId
            llm_analysis := analysis
            suspicious_figures := (determineReviewRequirement analysis).2
            total_figures_analyzed :=
              (analysis.statement_analyses.map fun s => s.figures.length).sum
            low_confidence_count := (determineReviewRequirement analysis).2.length } ∧
      (processUnitNormalizationDiscovery docId payload (.ok analysis)).payload =
        payload) ∧
    ((processUnitNormalizationDiscovery docId payload (.ok analysis)).status ≠
        "PENDING_REVIEW" →
      (processUnitNormalizationDiscovery docId payload (.ok analysis)).status =
        "AUTO_APPROVED" ∧
      (processUnitNormalizationDiscovery docId payload (.ok analysis)).reviewRow =
        none ∧
      (processUnitNormalizationDiscovery docId payload (.ok analysis)).payload =
        { payload with unit_normalized_data := some analysis }) := by
  have hmem : ∀ sf, sf ∈ (determineReviewRequirement analysis).2 ↔
      ∃ sa ∈ analysis.statement_analyses, ∃ f ∈ sa.figures,
        f.confidence = "low" ∧ sf = suspiciousOf sa f := by
    intro sf
    simp only [determineReviewRequirement, List.mem_flatMap, List.mem_map,
      List.mem_filter, decide_eq_true_eq]
    constructor
    · rintro ⟨sa, hsa, f, ⟨hf, hlow⟩, heq⟩
      exact ⟨sa, hsa, f, hf, hlow, heq.symm⟩
    · rintro ⟨sa, hsa, f, hf, hlow, heq⟩
      exact ⟨sa, hsa, f, ⟨hf, hlow⟩, heq.symm⟩
  have hpos : (0 < (determineReviewRequirement analysis).2.length) ↔
      (∃ sa ∈ analysis.statement_analyses, ∃ f ∈ sa.figures,
        f.confidence = "low") := by
    rw [List.length_pos_iff_exists_mem]
    constructor
    · rintro ⟨sf, hsf⟩
      obtain ⟨sa, hsa, f, hf, hlow, _⟩ := (hmem sf).mp hsf
      exact ⟨sa, hsa, f, hf, hlow⟩
    · rintro ⟨sa, hsa, f, hf, hlow⟩
      exact ⟨suspiciousOf sa f, (hmem _).mpr ⟨sa, hsa, f, hf, hlow, rfl⟩⟩
  have h1 : (determineReviewRequirement analysis).1 =
      (decide (0 < (determineReviewRequirement analysis).2.length) ||
        analysis.filing_analysis.requires_human_review.getD false) := rfl
  have hcond : (determineReviewRequirement analysis).1 = true ↔
      ((∃ sa ∈ analysis.statement_analyses, ∃ f ∈ sa.figures, f.confidence = "low") ∨
        analysis.filing_analysis.requires_human_review.getD false = true) := by
    rw [h1]
    simp [hpos]
  by_cases hc : (determineReviewRequirement analysis).1 = true
  · refine ⟨?_, hmem, ?_, ?_⟩
    · simp only [processUnitNormalizationDiscovery, hc, if_true]
      simpa using hcond.mp hc
    · intro _
      constructor <;> simp [processUnitNormalizationDiscovery, hc]
    · intro h
      exact absurd (by simp [processUnitNormalizationDiscovery, hc]) h
  · refine ⟨?_, hmem, ?_, ?_⟩
    · simp only [processUnitNormalizationDiscovery, hc, if_false]
      constructor
      · intro h
        exact absurd h (by simp)
      · intro h
        exact absurd (hcond.mpr h) hc
    · intro h
      exact absurd h (by simp [processUnitNormalizationDiscovery, hc])
    · intro _
      refine ⟨?_, ?_, ?_⟩ <;> simp [processUnitNormalizationDiscovery, hc]

/-- C4 witness: a filing with exactly one low-confidence figure,
instantiating the gating theorem at it. -/
theorem unit_review_gating_witness :
    (((processUnitNormalizationDiscovery 1 demoEmptyPayload
          (.ok demoLowAnalysis)).status = "PENDING_REVIEW") ↔
      ((∃ sa ∈ demoLowAnalysis.statement_analyses, ∃ f ∈ sa.figures,
          f.confidence = "low") ∨
        demoLowAnalysis.filing_analysis.requires_human_review.getD false = true)) :=
  (unit_review_gating 1 demoEmptyPayload demoLowAnalysis).1

/-- C5: the discovery sweep's "temporary slice for testing"
(`doc_ids_to_process = doc_ids[:0]`) processes no documents at all even
with LLM calls enabled and a non-empty pending list, contradicting the
claim that every statement-normalized, not-yet-unit-classified document is
processed with one oracle request each. -/
theorem unit_discovery_processes_no_documents :
    runUnitNormalizerDiscoveryIds true [1, 2, 3] = [] ∧
    docIdsToProcess [1, 2, 3] = [] ∧
    ([1, 2, 3] : List Nat) ≠ [] := by
  refine ⟨rfl, rfl, by decide⟩

/-! ## Theorems about the retry loop and failure handling -/

/-- C7 counterexample: when the oracle call for a document's only
statement fails, label discovery nonetheless marks the document
PENDING_REVIEW (the append to `docs_to_update_status` sits outside the
per-statement `try`), so its `label_review_status` does not stay PENDING
and the document is not picked up by the next discovery sweep. No cache
row was written for its label. -/
theorem label_discovery_changes_status_on_failure :
    (runLabelDiscoveryDoc failingLabelOracle demoLeaves true "Banking" []
        [demoBankStatement] "PENDING").2.2 = "PENDING_REVIEW" ∧
    ("PENDING_REVIEW" : String) ≠ "PENDING" ∧
    (runLabelDiscoveryDoc failingLabelOracle demoLeaves true "Banking" []
        [demoBankStatement] "PENDING").1 = [] := by
  refine ⟨rfl, by decide, rfl⟩

/-- C7 amended: oracle calls are retried up to `LLM_MAX_RETRIES = 3` times
with exponential backoff (5 s then 10 s) and the last error then
propagates. During unit discovery the failed document's handler returns
PENDING, leaving its `unit_review_status` unchanged and the payload
untouched, so it stays eligible for the next sweep; during label
discovery, however, any document with statement analyses is marked
PENDING_REVIEW even when every oracle call failed. In neither phase is
the document marked failed. -/
theorem oracle_retry_and_phase_status (att : Nat → Except String String)
    (errs : Nat → String)
    (hfail : ∀ i < LLM_MAX_RETRIES, att i = .error (errs i)) :
    callGeminiWithRetry att = (.error (errs 2), [5, 10]) ∧
    (∀ (docId : Nat) (payload : NormalizedPayload) (msg : String),
      processUnitNormalizationDiscovery docId payload (.error msg) =
        { status := "PENDING", reviewRow := none, payload := payload }) ∧
    (∀ (oracle : LabelOracle) (leaves : String → List String) (allowLlm : Bool)
        (industry : String) (cache : List LabelMapping)
        (analyses : List OracleStatement) (s : String),
      analyses ≠ [] →
        (runLabelDiscoveryDoc oracle leaves allowLlm industry cache analyses s).2.2 =
          "PENDING_REVIEW") := by
  refine ⟨?_, ?_, ?_⟩
  · have h0 := hfail 0 (by decide)
    have h1 := hfail 1 (by decide)
    have h2 := hfail 2 (by decide)
    simp [callGeminiWithRetry, LLM_MAX_RETRIES, retryFrom, h0, h1, h2,
      LLM_INITIAL_BACKOFF]
  · intro docId payload msg
    rfl
  · intro oracle leaves allowLlm industry cache analyses s h
    have hne : analyses.isEmpty = false := by
      simpa [List.isEmpty_iff] using h
    simp [runLabelDiscoveryDoc, hne]

/-- C7 amended witness: a concrete always-failing attempt function,
instantiating the retry theorem. -/
theorem oracle_retry_and_phase_status_witness :
    callGeminiWithRetry (fun _ => .error "timeout") = (.error "timeout", [5, 10]) :=
  (oracle_retry_and_phase_status (fun _ => .error "timeout") (fun _ => "timeout")
    (fun _ _ => rfl)).1

/-! ## Theorems about label application -/

theorem allLabelsApproved_iff (cache : List LabelMapping) (industry : String)
    (doc : StagedDoc) :
    allLabelsApproved cache industry doc = true ↔
      ∀ l ∈ docRawLabels doc,
        (getLabelMapping cache l industry).map (fun m => m.status) =
          some "APPROVED" := by
  simp only [allLabelsApproved, List.all_eq_true]
  refine forall_congr' fun l => forall_congr' fun _ => ?_
  cases hm : getLabelMapping cache l industry <;> simp [hm]

/-- C2: for a document awaiting label review, one application pass marks
it APPROVED iff every distinct raw label of its unit analysis has a cache
entry under `(raw_label, industry)` with status exactly APPROVED; when any
entry is REJECTED, PENDING_REVIEW or missing, the document is left
completely unchanged (no partial application). -/
theorem label_application_approval (cache : List LabelMapping)
    (industry : String) (doc : StagedDoc)
    (h : doc.label_review_status = "PENDING_REVIEW") :
    ((applyLabelDoc cache industry doc).label_review_status = "APPROVED" ↔
      ∀ l ∈ docRawLabels doc,
        (getLabelMapping cache l industry).map (fun m => m.status) =
          some "APPROVED") ∧
    ((¬ ∀ l ∈ docRawLabels doc,
        (getLabelMapping cache l industry).map (fun m => m.status) =
          some "APPROVED") →
      applyLabelDoc cache industry doc = doc) ∧
    ((∀ l ∈ docRawLabels doc,
        (getLabelMapping cache l industry).map (fun m => m.status) =
          some "APPROVED") →
      (applyLabelDoc cache industry doc).label_review_status = "APPROVED") := by
  by_cases hc : allLabelsApproved cache industry doc = true
  · refine ⟨?_, ?_, ?_⟩
    · simp only [applyLabelDoc, h, if_pos, hc, if_true]
      simpa using (allLabelsApproved_iff cache industry doc).mp hc
    · intro hnot
      exact absurd ((allLabelsApproved_iff cache industry doc).mp hc) hnot
    · intro _
      simp [applyLabelDoc, h, hc]
  · have happly : applyLabelDoc cache industry doc = doc := by
      simp [applyLabelDoc, h, hc]
    refine ⟨?_, fun _ => happly, ?_⟩
    · rw [happly, h]
      apply iff_of_false (by decide)
      intro hall
      exact hc ((allLabelsApproved_iff cache industry doc).mpr hall)
    · intro hall
      exact absurd ((allLabelsApproved_iff cache industry doc).mpr hall) hc

/-- C2 witness: the spec's partial-approval example — the document with
three distinct raw labels is untouched while one label is still
PENDING_REVIEW, and one application pass approves it once all three cache
entries are APPROVED. -/
theorem label_application_approval_witness :
    applyLabelDoc demoCachePartial "Banking" demoLabelDoc = demoLabelDoc ∧
    (applyLabelDoc demoCacheFull "Banking" demoLabelDoc).label_review_status =
      "APPROVED" := by
  constructor
  · exact (label_application_approval demoCachePartial "Banking" demoLabelDoc
      rfl).2.1 (by decide)
  · exact (label_application_approval demoCacheFull "Banking" demoLabelDoc
      rfl).2.2 (by decide)

theorem mem_docRawLabels {doc : StagedDoc} {sa : OracleStatement}
    {f : OracleFigure} (hsa : sa ∈ docAnalyses doc) (hf : f ∈ sa.figures) :
    f.label ∈ docRawLabels doc := by
  simp only [docRawLabels, List.mem_dedup, List.mem_flatMap, List.mem_map]
  exact ⟨sa, hsa, f, hf, rfl⟩

theorem figsFold_of_none (cache : List LabelMapping) (industry : String)
    (doc : StagedDoc) (sa : OracleStatement) :
    ∀ (figs : List OracleFigure) (acc : LabelNormalizedData),
      (∀ f ∈ figs, approvedMappingGet cache industry f.label = none) →
      figs.foldl
        (fun acc2 fig =>
          match approvedMappingGet cache industry fig.label with
          | none => acc2
          | some nl =>
            if nl = "" then acc2
            else
              let entry := finalEntryFor doc.normalized_data.statement_normalized_data fig
              if strHasSub sa.standard_mapping "standalone" then
                { acc2 with standalone := dictInsert acc2.standalone nl entry }
              else
                { acc2 with consolidated := dictInsert acc2.consolidated nl entry })
        acc = acc
  | [], acc, _ => rfl
  | f :: rest, acc, hn => by
    have hf := hn f (List.mem_cons_self f rest)
    rw [List.foldl_cons]
    have hstep :
        (match approvedMappingGet cache industry f.label with
          | none => acc
          | some nl =>
            if nl = "" then acc
            else
              let entry := finalEntryFor doc.normalized_data.statement_normalized_data f
              if strHasSub sa.standard_mapping "standalone" then
                { acc with standalone := dictInsert acc.standalone nl entry }
              else
                { acc with consolidated := dictInsert acc.consolidated nl entry }) = acc := by
      rw [hf]
    rw [hstep]
    exact figsFold_of_none cache industry doc sa rest acc
      fun g hg => hn g (List.mem_cons_of_mem f hg)

theorem buildFinalData_of_none (cache : List LabelMapping) (industry : String)
    (doc : StagedDoc)
    (hn : ∀ sa ∈ docAnalyses doc, ∀ f ∈ sa.figures,
      approvedMappingGet cache industry f.label = none) :
    buildFinalData cache industry doc = { standalone := [], consolidated := [] } := by
  unfold buildFinalData
  generalize hsas : docAnalyses doc = sas at hn
  suffices hgen : ∀ (sas' : List OracleStatement) (acc : LabelNormalizedData),
      (∀ sa ∈ sas', ∀ f ∈ sa.figures,
        approvedMappingGet cache industry f.label = none) →
      sas'.foldl
        (fun acc sa =>
          sa.figures.foldl
            (fun acc2 fig =>
              match approvedMappingGet cache industry fig.label with
              | none => acc2
              | some nl =>
                if nl = "" then acc2
                else
                  let entry := finalEntryFor doc.normalized_data.statement_normalized_data fig
                  if strHasSub sa.standard_mapping "standalone" then
                    { acc2 with standalone := dictInsert acc2.standalone nl entry }
                  else
                    { acc2 with consolidated := dictInsert acc2.consolidated nl entry })
            acc)
        acc = acc by
    exact hgen sas _ hn
  intro sas'
  induction sas' with
  | nil => intro acc _; rfl
  | cons sa rest ih =>
    intro acc hsome
    rw [List.foldl_cons,
      figsFold_of_none cache industry doc sa sa.figures acc
        (hsome sa (List.mem_cons_self sa rest))]
    exact ih acc fun sb hb => hsome sb (List.mem_cons_of_mem sa hb)

/-- C10: a cache entry that is APPROVED with a `null` normalized label
counts toward a document's eligibility, but its figure is omitted from the
final structure: a document all of whose distinct raw labels are APPROVED
with `null` mappings is marked `label_review_status = APPROVED` while both
scopes of its `label_normalized_data` are empty. -/
theorem label_application_null_mappings (cache : List LabelMapping)
    (industry : String) (doc : StagedDoc)
    (h : doc.label_review_status = "PENDING_REVIEW")
    (hall : ∀ l ∈ docRawLabels doc,
      (getLabelMapping cache l industry).map (fun m => m.status) =
        some "APPROVED" ∧
      (getLabelMapping cache l industry).map (fun m => m.normalized_label) =
        some none) :
    (applyLabelDoc cache industry doc).label_review_status = "APPROVED" ∧
    (applyLabelDoc cache industry doc).normalized_data.label_normalized_data =
      some { standalone := [], consolidated := [] } := by
  have happr : allLabelsApproved cache industry doc = true :=
    (allLabelsApproved_iff cache industry doc).mpr fun l hl => (hall l hl).1
  have hnone : ∀ sa ∈ docAnalyses doc, ∀ f ∈ sa.figures,
      approvedMappingGet cache industry f.label = none := by
    intro sa hsa f hf
    have hl := (hall f.label (mem_docRawLabels hsa hf)).2
    cases hm : getLabelMapping cache f.label industry with
    | none => simp [approvedMappingGet, hm]
    | some m =>
      rw [hm] at hl
      have hnl : m.normalized_label = none := by simpa using hl
      simp [approvedMappingGet, hm, hnl]
  have hbuild := buildFinalData_of_none cache industry doc hnone
  constructor <;> simp [applyLabelDoc, h, happr, hbuild]

/-- C10 witness: a document whose single raw label is cached APPROVED with
a `null` normalized label, instantiating the null-mapping theorem. -/
theorem label_application_null_mappings_witness :
    (applyLabelDoc demoNullCache "Banking" demoNullDoc).label_review_status =
      "APPROVED" ∧
    (applyLabelDoc demoNullCache "Banking" demoNullDoc).normalized_data.label_normalized_data =
      some { standalone := [], consolidated := [] } :=
  label_application_null_mappings demoNullCache "Banking" demoNullDoc rfl
    (by decide)

/-! ## Theorems about label discovery -/

theorem getLabelMapping_upsert_self (c : List LabelMapping) (row : LabelMapping) :
    (getLabelMapping (upsertLabelMapping c row) row.raw_label row.industry).isSome =
      true := by
  induction c with
  | nil => simp [upsertLabelMapping, getLabelMapping]
  | cons m rest ih =>
    by_cases hm : m.raw_label = row.raw_label ∧ m.industry = row.industry
    · simp [upsertLabelMapping, getLabelMapping, hm]
    · simp [upsertLabelMapping, getLabelMapping, hm, ih]

theorem getLabelMapping_upsert_ne (c : List LabelMapping) (row : LabelMapping)
    (l i : String) (h : ¬(l = row.raw_label ∧ i = row.industry)) :
    getLabelMapping (upsertLabelMapping c row) l i = getLabelMapping c l i := by
  induction c with
  | nil =>
    have h' : ¬(row.raw_label = l ∧ row.industry = i) :=
      fun ⟨h1, h2⟩ => h ⟨h1.symm, h2.symm⟩
    simp [upsertLabelMapping, getLabelMapping, h']
  | cons m rest ih =>
    simp only [upsertLabelMapping]
    by_cases hm : m.raw_label = row.raw_label ∧ m.industry = row.industry
    · rw [if_pos hm]
      have hcond : ¬(m.raw_label = l ∧ m.industry = i) :=
        fun ⟨h1, h2⟩ => h ⟨h1.symm.trans hm.1, h2.symm.trans hm.2⟩
      simp only [getLabelMapping]
      rw [if_neg hcond, if_neg hcond]
    · rw [if_neg hm]
      simp only [getLabelMapping]
      by_cases hcond : m.raw_label = l ∧ m.industry = i
      · rw [if_pos hcond, if_pos hcond]
      · rw [if_neg hcond, if_neg hcond, ih]

theorem getLabelMapping_upsert_mono (c : List LabelMapping) (row : LabelMapping)
    (l i : String) (h : (getLabelMapping c l i).isSome = true) :
    (getLabelMapping (upsertLabelMapping c row) l i).isSome = true := by
  by_cases hx : l = row.raw_label ∧ i = row.industry
  · rw [hx.1, hx.2]
    exact getLabelMapping_upsert_self c row
  · rw [getLabelMapping_upsert_ne c row l i hx]
    exact h

theorem mem_cacheKeys_upsert {c : List LabelMapping} {row : LabelMapping}
    {x : String × String} (h : x ∈ cacheKeys (upsertLabelMapping c row)) :
    x ∈ cacheKeys c ∨ x = (row.raw_label, row.industry) := by
  induction c with
  | nil =>
    right
    simpa [upsertLabelMapping, cacheKeys] using h
  | cons m rest ih =>
    simp only [upsertLabelMapping] at h
    by_cases hm : m.raw_label = row.raw_label ∧ m.industry = row.industry
    · rw [if_pos hm] at h
      left
      simp only [cacheKeys, List.map_cons, List.mem_cons] at h ⊢
      rcases h with h | h
      · exact Or.inl h
      · exact Or.inr h
    · rw [if_neg hm] at h
      simp only [cacheKeys, List.map_cons, List.mem_cons] at h ⊢
      rcases h with h | h
      · exact Or.inl (Or.inl h)
      · rcases ih h with h' | h'
        · exact Or.inl (Or.inr h')
        · exact Or.inr h'

theorem uniqueKeys_upsert (c : List LabelMapping) (row : LabelMapping)
    (h : uniqueKeys c) : uniqueKeys (upsertLabelMapping c row) := by
  induction c with
  | nil => simp [upsertLabelMapping, uniqueKeys, cacheKeys]
  | cons m rest ih =>
    rw [uniqueKeys, cacheKeys, List.map_cons, List.nodup_cons] at h
    simp only [upsertLabelMapping]
    by_cases hm : m.raw_label = row.raw_label ∧ m.industry = row.industry
    · rw [if_pos hm, uniqueKeys, cacheKeys, List.map_cons, List.nodup_cons]
      exact ⟨h.1, h.2⟩
    · rw [if_neg hm, uniqueKeys, cacheKeys, List.map_cons, List.nodup_cons]
      refine ⟨?_, ih h.2⟩
      intro hmem
      rcases mem_cacheKeys_upsert hmem with h' | h'
      · exact h.1 h'
      · exact hm ⟨congrArg Prod.fst h', congrArg Prod.snd h'⟩

theorem foldl_discRow_mono (industry : String)
    (ps : List (String × Option String)) :
    ∀ (c : List LabelMapping) (l i : String),
      (getLabelMapping c l i).isSome = true →
      (getLabelMapping
        (ps.foldl (fun c p => upsertLabelMapping c (discRow industry p)) c) l
        i).isSome = true := by
  induction ps with
  | nil => intro c l i h; exact h
  | cons p rest ih =>
    intro c l i h
    exact ih _ l i (getLabelMapping_upsert_mono c (discRow industry p) l i h)

theorem foldl_discRow_uniqueKeys (industry : String)
    (ps : List (String × Option String)) :
    ∀ c : List LabelMapping, uniqueKeys c →
      uniqueKeys (ps.foldl (fun c p => upsertLabelMapping c (discRow industry p)) c) := by
  induction ps with
  | nil => intro c h; exact h
  | cons p rest ih =>
    intro c h
    exact ih _ (uniqueKeys_upsert c (discRow industry p) h)

theorem foldl_discRow_covers (industry : String)
    (ps : List (String × Option String)) :
    ∀ (c : List LabelMapping) (l : String), l ∈ ps.map Prod.fst →
      (getLabelMapping
        (ps.foldl (fun c p => upsertLabelMapping c (discRow industry p)) c) l
        industry).isSome = true := by
  induction ps with
  | nil => intro c l h; simp at h
  | cons p rest ih =>
    intro c l h
    rw [List.map_cons, List.mem_cons] at h
    rcases h with h | h
    · subst h
      rw [List.foldl_cons]
      exact foldl_discRow_mono industry rest _ p.1 industry
        (getLabelMapping_upsert_self c (discRow industry p))
    · exact ih _ l h

/-- Branch analysis of `discoverStmt`: the statement either leaves the
state unchanged, or issues exactly one oracle call for its new labels and
applies its result. -/
theorem discoverStmt_spec (oracle : LabelOracle) (leaves : String → List String)
    (allowLlm : Bool) (industry : String)
    (st : List LabelMapping × List LabelOracleRequest × List (String × String))
    (sa : OracleStatement) :
    discoverStmt oracle leaves allowLlm industry st sa = st ∨
    ∃ k, stmtKeyOf sa = some k ∧ allowLlm = true ∧
      newLabelsOf industry st sa ≠ [] ∧
      ((∃ e, oracle (discReq leaves industry st sa k) = .error e ∧
          discoverStmt oracle leaves allowLlm industry st sa =
            (st.1, st.2.1 ++ [discReq leaves industry st sa k], st.2.2)) ∨
        (∃ resp, oracle (discReq leaves industry st sa k) = .ok resp ∧
          discoverStmt oracle leaves allowLlm industry st sa =
            (resp.foldl (fun c p => upsertLabelMapping c (discRow industry p)) st.1,
              st.2.1 ++ [discReq leaves industry st sa k],
              st.2.2 ++ resp.map fun p => (p.1, industry)))) := by
  by_cases hf : sa.figures.isEmpty = true
  · left
    simp only [discoverStmt]
    rw [if_pos hf]
  · cases hk : stmtKeyOf sa with
    | none =>
      left
      simp only [discoverStmt, hk]
      rw [if_neg hf]
    | some k =>
      by_cases hl : (leaves k).isEmpty = true
      · left
        simp only [discoverStmt, hk]
        rw [if_neg hf, if_pos hl]
      · by_cases hn : (newLabelsOf industry st sa).isEmpty = true
        · left
          simp only [discoverStmt, hk]
          rw [if_neg hf, if_neg hl, if_pos hn]
        · by_cases ha : allowLlm = false
          · left
            simp only [discoverStmt, hk]
            rw [if_neg hf, if_neg hl, if_neg hn, if_pos ha]
          · right
            refine ⟨k, rfl, by revert ha; cases allowLlm <;> simp,
              by simpa [List.isEmpty_iff] using hn, ?_⟩
            cases ho : oracle (discReq leaves industry st sa k) with
            | error e =>
              left
              refine ⟨e, rfl, ?_⟩
              simp only [discoverStmt, hk]
              rw [if_neg hf, if_neg hl, if_neg hn, if_neg ha, ho]
            | ok resp =>
              right
              refine ⟨resp, rfl, ?_⟩
              simp only [discoverStmt, hk]
              rw [if_neg hf, if_neg hl, if_neg hn, if_neg ha, ho]

/-- Cache lookups that succeed keep succeeding across one discovery step. -/
theorem discoverStmt_cache_mono (oracle : LabelOracle)
    (leaves : String → List String) (allowLlm : Bool) (industry : String)
    (st : List LabelMapping × List LabelOracleRequest × List (String × String))
    (sa : OracleStatement) (l i : String)
    (h : (getLabelMapping st.1 l i).isSome = true) :
    (getLabelMapping (discoverStmt oracle leaves allowLlm industry st sa).1 l
      i).isSome = true := by
  rcases discoverStmt_spec oracle leaves allowLlm industry st sa with hstep |
    ⟨k, _, _, _, ⟨e, _, hstep⟩ | ⟨resp, _, hstep⟩⟩
  · rw [hstep]; exact h
  · rw [hstep]; exact h
  · rw [hstep]
    exact foldl_discRow_mono industry resp st.1 l i h

/-- One discovery step preserves key uniqueness of the cache. -/
theorem discoverStmt_uniqueKeys (oracle : LabelOracle)
    (leaves : String → List String) (allowLlm : Bool) (industry : String)
    (st : List LabelMapping × List LabelOracleRequest × List (String × String))
    (sa : OracleStatement) (h : uniqueKeys st.1) :
    uniqueKeys (discoverStmt oracle leaves allowLlm industry st sa).1 := by
  rcases discoverStmt_spec oracle leaves allowLlm industry st sa with hstep |
    ⟨k, _, _, _, ⟨e, _, hstep⟩ | ⟨resp, _, hstep⟩⟩
  · rw [hstep]; exact h
  · rw [hstep]; exact h
  · rw [hstep]
    exact foldl_discRow_uniqueKeys industry resp st.1 h

/-- Any oracle call issued by one discovery step asks only about labels
that had no cache entry when the step started. -/
theorem discoverStmt_calls_uncached (oracle : LabelOracle)
    (leaves : String → List String) (allowLlm : Bool) (industry : String)
    (st : List LabelMapping × List LabelOracleRequest × List (String × String))
    (sa : OracleStatement) (req : LabelOracleRequest)
    (hreq : req ∈ (discoverStmt oracle leaves allowLlm industry st sa).2.1) :
    req ∈ st.2.1 ∨
      ∀ l ∈ req.raw_labels, getLabelMapping st.1 l industry = none := by
  rcases discoverStmt_spec oracle leaves allowLlm industry st sa with hstep |
    ⟨k, _, _, _, ⟨e, _, hstep⟩ | ⟨resp, _, hstep⟩⟩
  · rw [hstep] at hreq
    exact Or.inl hreq
  all_goals
    rw [hstep] at hreq
    simp only [List.mem_append, List.mem_singleton] at hreq
    rcases hreq with hreq | hreq
    · exact Or.inl hreq
    · right
      intro l hl
      rw [hreq] at hl
      simp only [discReq, newLabelsOf, List.mem_filter, decide_eq_true_eq] at hl
      exact hl.2.2

/-- A statement whose raw labels are all cached (and in general any
saturated statement) is a no-op for the discovery step. -/
theorem discoverStmt_of_saturated (oracle : LabelOracle)
    (leaves : String → List String) (allowLlm : Bool) (industry : String)
    (st : List LabelMapping × List LabelOracleRequest × List (String × String))
    (sa : OracleStatement) (h : Saturated leaves industry st.1 sa) :
    discoverStmt oracle leaves allowLlm industry st sa = st := by
  by_cases hf : sa.figures.isEmpty = true
  · simp only [discoverStmt]
    rw [if_pos hf]
  · cases hk : stmtKeyOf sa with
    | none =>
      simp only [discoverStmt, hk]
      rw [if_neg hf]
    | some k =>
      by_cases hl : (leaves k).isEmpty = true
      · simp only [discoverStmt, hk]
        rw [if_neg hf, if_pos hl]
      · have hall : ∀ l ∈ rawLabelsOfStmt sa,
            (getLabelMapping st.1 l industry).isSome = true := by
          rcases h with hskip | hall
          · exfalso
            have hf' : sa.figures.isEmpty = false := by simpa using hf
            have hl' : (leaves k).isEmpty = false := by simpa using hl
            simp [stmtSkipped, hk, hf', hl'] at hskip
          · exact hall
        have hn : (newLabelsOf industry st sa).isEmpty = true := by
          rw [newLabelsOf, List.isEmpty_iff, List.filter_eq_nil_iff]
          intro a ha
          simp only [decide_eq_true_eq, not_and]
          intro _
          intro hc
          have := hall a ha
          rw [hc] at this
          simp at this
        simp only [discoverStmt, hk]
        rw [if_neg hf, if_neg hl, if_pos hn]

/-- With a successful, covering oracle, one discovery step keeps the
processed-run invariant and leaves the statement saturated: afterwards
every one of its distinct raw labels is cached (or the statement is one
the loop skips outright). -/
theorem discoverStmt_saturates (oracle : LabelOracle)
    (leaves : String → List String) (industry : String)
    (hOracle : ∀ req, ∃ resp, oracle req = .ok resp ∧
      resp.map Prod.fst = req.raw_labels)
    (st : List LabelMapping × List LabelOracleRequest × List (String × String))
    (sa : OracleStatement) (hP : ProcessedCached industry st) :
    ProcessedCached industry (discoverStmt oracle leaves true industry st sa) ∧
    Saturated leaves industry
      (discoverStmt oracle leaves true industry st sa).1 sa := by
  by_cases hf : sa.figures.isEmpty = true
  · have hstep : discoverStmt oracle leaves true industry st sa = st := by
      simp only [discoverStmt]
      rw [if_pos hf]
    rw [hstep]
    exact ⟨hP, Or.inl (by simp [stmtSkipped, hf])⟩
  · have hf' : sa.figures.isEmpty = false := by simpa using hf
    cases hk : stmtKeyOf sa with
    | none =>
      have hstep : discoverStmt oracle leaves true industry st sa = st := by
        simp only [discoverStmt, hk]
        rw [if_neg hf]
      rw [hstep]
      exact ⟨hP, Or.inl (by simp [stmtSkipped, hk, hf'])⟩
    | some k =>
      by_cases hl : (leaves k).isEmpty = true
      · have hstep : discoverStmt oracle leaves true industry st sa = st := by
          simp only [discoverStmt, hk]
          rw [if_neg hf, if_pos hl]
        rw [hstep]
        exact ⟨hP, Or.inl (by simp [stmtSkipped, hk, hf', hl])⟩
      · by_cases hn : (newLabelsOf industry st sa).isEmpty = true
        · have hstep : discoverStmt oracle leaves true industry st sa = st := by
            simp only [discoverStmt, hk]
            rw [if_neg hf, if_neg hl, if_pos hn]
          rw [hstep]
          refine ⟨hP, Or.inr ?_⟩
          have hnp : ∀ a ∈ rawLabelsOfStmt sa,
              ¬((a, industry) ∉ st.2.2 ∧
                getLabelMapping st.1 a industry = none) := by
            intro a ha
            have h0 : newLabelsOf industry st sa = [] := by
              simpa [List.isEmpty_iff] using hn
            rw [newLabelsOf, List.filter_eq_nil_iff] at h0
            simpa using h0 a ha
          intro l hl'
          rcases not_and_or.mp (hnp l hl') with hmem | hnone
          · exact hP (l, industry) (not_not.mp hmem) rfl
          · exact Option.ne_none_iff_isSome.mp hnone
        · obtain ⟨resp, hresp, hcov⟩ := hOracle (discReq leaves industry st sa k)
          have hstep : discoverStmt oracle leaves true industry st sa =
              (resp.foldl (fun c p => upsertLabelMapping c (discRow industry p)) st.1,
                st.2.1 ++ [discReq leaves industry st sa k],
                st.2.2 ++ resp.map fun p => (p.1, industry)) := by
            simp only [discoverStmt, hk]
            rw [if_neg hf, if_neg hl, if_neg hn,
              if_neg (by simp : ¬(true = false)), hresp]
          have h1 : (discoverStmt oracle leaves true industry st sa).1 =
              resp.foldl (fun c p => upsertLabelMapping c (discRow industry p)) st.1 := by
            rw [hstep]
          have h22 : (discoverStmt oracle leaves true industry st sa).2.2 =
              st.2.2 ++ resp.map fun p => (p.1, industry) := by
            rw [hstep]
          have hcov' : resp.map Prod.fst = newLabelsOf industry st sa := by
            simpa [discReq] using hcov
          constructor
          · intro pr hpr hind
            rw [h22, List.mem_append] at hpr
            rw [h1]
            rcases hpr with hpr | hpr
            · exact foldl_discRow_mono industry resp st.1 pr.1 industry
                (hP pr hpr hind)
            · rw [List.mem_map] at hpr
              obtain ⟨p, hp, hpe⟩ := hpr
              have hp1 : pr.1 = p.1 := by rw [← hpe]
              rw [hp1]
              exact foldl_discRow_covers industry resp st.1 p.1
                (List.mem_map.mpr ⟨p, hp, rfl⟩)
          · right
            intro l hl'
            rw [h1]
            by_cases hpred : (l, industry) ∉ st.2.2 ∧
                getLabelMapping st.1 l industry = none
            · have hlnew : l ∈ newLabelsOf industry st sa := by
                rw [newLabelsOf, List.mem_filter]
                exact ⟨hl', by simpa using hpred⟩
              exact foldl_discRow_covers industry resp st.1 l
                (by rw [hcov']; exact hlnew)
            · rcases not_and_or.mp hpred with hmem | hnone
              · exact foldl_discRow_mono industry resp st.1 l industry
                  (hP (l, industry) (not_not.mp hmem) rfl)
              · exact foldl_discRow_mono industry resp st.1 l industry
                  (Option.ne_none_iff_isSome.mp hnone)

theorem foldl_discover_mono (oracle : LabelOracle)
    (leaves : String → List String) (allowLlm : Bool) (industry : String)
    (analyses : List OracleStatement) :
    ∀ (st : List LabelMapping × List LabelOracleRequest × List (String × String))
      (l i : String), (getLabelMapping st.1 l i).isSome = true →
      (getLabelMapping
        ((analyses.foldl (discoverStmt oracle leaves allowLlm industry) st)).1 l
        i).isSome = true := by
  induction analyses with
  | nil => intro st l i h; exact h
  | cons sa rest ih =>
    intro st l i h
    rw [List.foldl_cons]
    exact ih _ l i
      (discoverStmt_cache_mono oracle leaves allowLlm industry st sa l i h)

theorem foldl_discover_uniqueKeys (oracle : LabelOracle)
    (leaves : String → List String) (allowLlm : Bool) (industry : String)
    (analyses : List OracleStatement) :
    ∀ st : List LabelMapping × List LabelOracleRequest × List (String × String),
      uniqueKeys st.1 →
      uniqueKeys
        ((analyses.foldl (discoverStmt oracle leaves allowLlm industry) st)).1 := by
  induction analyses with
  | nil => intro st h; exact h
  | cons sa rest ih =>
    intro st h
    rw [List.foldl_cons]
    exact ih _ (discoverStmt_uniqueKeys oracle leaves allowLlm industry st sa h)

theorem foldl_discover_calls (oracle : LabelOracle)
    (leaves : String → List String) (allowLlm : Bool) (industry : String)
    (analyses : List OracleStatement) :
    ∀ (st : List LabelMapping × List LabelOracleRequest × List (String × String))
      (req : LabelOracleRequest),
      req ∈ ((analyses.foldl (discoverStmt oracle leaves allowLlm industry) st)).2.1 →
      req ∈ st.2.1 ∨
        ∀ l ∈ req.raw_labels, getLabelMapping st.1 l industry = none := by
  induction analyses with
  | nil => intro st req h; exact Or.inl h
  | cons sa rest ih =>
    intro st req h
    rw [List.foldl_cons] at h
    rcases ih _ req h with hin | hnone
    · exact discoverStmt_calls_uncached oracle leaves allowLlm industry st sa req hin
    · right
      intro l hl
      by_contra hc
      have hsome : (getLabelMapping st.1 l industry).isSome = true := by
        cases hgm : getLabelMapping st.1 l industry with
        | none => exact absurd hgm hc
        | some m => simp
      have hmono := discoverStmt_cache_mono oracle leaves allowLlm industry st sa
        l industry hsome
      rw [hnone l hl] at hmono
      simp at hmono

theorem foldl_discover_saturates (oracle : LabelOracle)
    (leaves : String → List String) (industry : String)
    (hOracle : ∀ req, ∃ resp, oracle req = .ok resp ∧
      resp.map Prod.fst = req.raw_labels)
    (analyses : List OracleStatement) :
    ∀ st : List LabelMapping × List LabelOracleRequest × List (String × String),
      ProcessedCached industry st →
      ProcessedCached industry
        (analyses.foldl (discoverStmt oracle leaves true industry) st) ∧
      ∀ sa ∈ analyses,
        Saturated leaves industry
          ((analyses.foldl (discoverStmt oracle leaves true industry) st)).1 sa := by
  induction analyses with
  | nil => intro st h; exact ⟨h, by simp⟩
  | cons sa rest ih =>
    intro st hP
    rw [List.foldl_cons]
    obtain ⟨hP', hsat⟩ := discoverStmt_saturates oracle leaves industry hOracle st sa hP
    obtain ⟨hPfin, hsats⟩ := ih _ hP'
    refine ⟨hPfin, ?_⟩
    intro sb hb
    rcases List.mem_cons.mp hb with hb | hb
    · subst hb
      rcases hsat with hskip | hall
      · exact Or.inl hskip
      · right
        intro l hl
        exact foldl_discover_mono oracle leaves true industry rest _ l industry
          (hall l hl)
    · exact hsats sb hb

theorem foldl_discover_of_saturated (oracle : LabelOracle)
    (leaves : String → List String) (allowLlm : Bool) (industry : String)
    (analyses : List OracleStatement) :
    ∀ st : List LabelMapping × List LabelOracleRequest × List (String × String),
      (∀ sa ∈ analyses, Saturated leaves industry st.1 sa) →
      analyses.foldl (discoverStmt oracle leaves allowLlm industry) st = st := by
  induction analyses with
  | nil => intro st _; rfl
  | cons sa rest ih =>
    intro st hall
    rw [List.foldl_cons, discoverStmt_of_saturated oracle leaves allowLlm industry
      st sa (hall sa (List.mem_cons_self sa rest))]
    exact ih st fun sb hb => hall sb (List.mem_cons_of_mem sa hb)

theorem runLabelDiscoveryDoc_proj (oracle : LabelOracle)
    (leaves : String → List String) (industry : String)
    (analyses : List OracleStatement) (c : List LabelMapping) (s : String) :
    (runLabelDiscoveryDoc oracle leaves true industry c analyses s).1 =
      ((analyses.foldl (discoverStmt oracle leaves true industry) (c, [], []))).1 ∧
    (runLabelDiscoveryDoc oracle leaves true industry c analyses s).2.1 =
      ((analyses.foldl (discoverStmt oracle leaves true industry) (c, [], []))).2.1 := by
  by_cases h : analyses.isEmpty = true
  · have he : analyses = [] := by simpa [List.isEmpty_iff] using h
    subst he
    simp [runLabelDiscoveryDoc]
  · simp [runLabelDiscoveryDoc, h]

/-- C6: with a successful oracle that answers every requested label,
running label discovery on the same document twice (against the cache
state the first run left behind) adds no cache rows and makes no oracle
calls at all in the second run; the cache keeps unique
`(raw_label, industry)` keys; every call of the first run is only about
labels with no prior cache entry; and a statement whose distinct raw
labels are all cached never reaches the oracle. -/
theorem label_discovery_idempotent (oracle : LabelOracle)
    (leaves : String → List String) (industry : String)
    (cache0 : List LabelMapping) (analyses : List OracleStatement)
    (s1 s2 : String)
    (hOracle : ∀ req, ∃ resp, oracle req = .ok resp ∧
      resp.map Prod.fst = req.raw_labels) :
    (uniqueKeys cache0 →
      uniqueKeys (runLabelDiscoveryDoc oracle leaves true industry cache0
        analyses s1).1) ∧
    (∀ req ∈ (runLabelDiscoveryDoc oracle leaves true industry cache0
        analyses s1).2.1,
      ∀ l ∈ req.raw_labels, getLabelMapping cache0 l industry = none) ∧
    (runLabelDiscoveryDoc oracle leaves true industry
        (runLabelDiscoveryDoc oracle leaves true industry cache0 analyses s1).1
        analyses s2).1 =
      (runLabelDiscoveryDoc oracle leaves true industry cache0 analyses s1).1 ∧
    (runLabelDiscoveryDoc oracle leaves true industry
        (runLabelDiscoveryDoc oracle leaves true industry cache0 analyses s1).1
        analyses s2).2.1 = [] ∧
    (∀ (st : List LabelMapping × List LabelOracleRequest × List (String × String))
        (sa : OracleStatement),
      (∀ l ∈ rawLabelsOfStmt sa,
        (getLabelMapping st.1 l industry).isSome = true) →
      discoverStmt oracle leaves true industry st sa = st) := by
  obtain ⟨hp1, hp2⟩ :=
    runLabelDiscoveryDoc_proj oracle leaves industry analyses cache0 s1
  have hP0 : ProcessedCached industry
      ((cache0, [], []) :
        List LabelMapping × List LabelOracleRequest × List (String × String)) :=
    fun pr hpr _ => absurd hpr (List.not_mem_nil pr)
  obtain ⟨hPfin, hsats⟩ :=
    foldl_discover_saturates oracle leaves industry hOracle analyses
      (cache0, [], []) hP0
  obtain ⟨hq1, hq2⟩ := runLabelDiscoveryDoc_proj oracle leaves industry analyses
    (runLabelDiscoveryDoc oracle leaves true industry cache0 analyses s1).1 s2
  have hsat2 : ∀ sa ∈ analyses,
      Saturated leaves industry
        (((runLabelDiscoveryDoc oracle leaves true industry cache0 analyses s1).1,
          ([] : List LabelOracleRequest), ([] : List (String × String))) :
            List LabelMapping × List LabelOracleRequest ×
              List (String × String)).1 sa := by
    intro sa hsa
    rw [hp1]
    exact hsats sa hsa
  have hfix := foldl_discover_of_saturated oracle leaves true industry analyses
    (((runLabelDiscoveryDoc oracle leaves true industry cache0 analyses s1).1,
      [], [])) hsat2
  refine ⟨?_, ?_, ?_, ?_, ?_⟩
  · intro hu
    rw [hp1]
    exact foldl_discover_uniqueKeys oracle leaves true industry analyses
      (cache0, [], []) hu
  · intro req hreq l hl
    rw [hp2] at hreq
    rcases foldl_discover_calls oracle leaves true industry analyses
      (cache0, [], []) req hreq with hin | hnone
    · exact absurd hin (List.not_mem_nil req)
    · exact hnone l hl
  · rw [hq1, hfix]
  · rw [hq2, hfix]
  · intro st sa h
    exact discoverStmt_of_saturated oracle leaves true industry st sa (Or.inr h)

/-- C6 witness: a covering oracle and a three-label banking statement —
the second discovery run leaves the cache unchanged and issues no oracle
calls. -/
theorem label_discovery_idempotent_witness :
    (runLabelDiscoveryDoc coveringLabelOracle demoLeaves true "Banking"
        (runLabelDiscoveryDoc coveringLabelOracle demoLeaves true "Banking" []
          [demoBankStatement] "PENDING").1
        [demoBankStatement] "PENDING").1 =
      (runLabelDiscoveryDoc coveringLabelOracle demoLeaves true "Banking" []
        [demoBankStatement] "PENDING").1 ∧
    (runLabelDiscoveryDoc coveringLabelOracle demoLeaves true "Banking"
        (runLabelDiscoveryDoc coveringLabelOracle demoLeaves true "Banking" []
          [demoBankStatement] "PENDING").1
        [demoBankStatement] "PENDING").2.1 = [] := by
  have h := label_discovery_idempotent coveringLabelOracle demoLeaves "Banking"
    [] [demoBankStatement] "PENDING" "PENDING"
    (fun req => ⟨req.raw_labels.map fun l => (l, some "interest_earned"), rfl, by
      rw [List.map_map]
      have hcomp : (Prod.fst ∘ fun l : String => (l, some "interest_earned")) = id := rfl
      rw [hcomp, List.map_id]⟩)
  exact ⟨h.2.2.1, h.2.2.2.1⟩

end QFin
